import Mathlib

/-!
Verification of the RedditToolkit (camel/toolkits/reddit_toolkit.py).

The toolkit has four pieces of logic of its own:

* a retry wrapper over network-bound calls (the method named with an
  underscore followed by retry_request),
* collect_top_posts, building nested post records,
* perform_sentiment_analysis, adding a sentiment score in place,
* track_keyword_discussions, a keyword filter producing flat rows.

The embedding below is shallow: Python exceptions become an error sum
type (PyErr) threaded through Except; a retried operation is a pure
function from the zero-based attempt index to the outcome of that
invocation; the external Reddit API is a total environment function
mapping a subreddit name and a post limit to the list of posts the
external ranking returns (the success path of the network calls); the
external sentiment library is an opaque function on field values.
Python dictionaries with dynamic keys are association lists that keep
insertion order; records of a fixed shape built by collect_top_posts
are structures.
-/

/-- A Python exception, as far as the toolkit distinguishes them:
requests.exceptions.RequestException is the transient network failure
caught by the retry loop; KeyError is the missing-field lookup failure
of the sentiment step; anything else is an opaque other error. -/
inductive PyErr where
  | requestException (msg : String)
  | keyError (key : String)
  | other (msg : String)
deriving DecidableEq, Repr

/-- Which errors the except clause of the retry loop catches. -/
def isTransient : PyErr → Bool
  | .requestException _ => true
  | _ => false

/-- What a call to the retry wrapper produces: a returned value, the
implicit None return when the loop body never runs, or a raised error. -/
inductive RetryResult (α : Type) where
  | value : α → RetryResult α
  | noneReturn : RetryResult α
  | raised : PyErr → RetryResult α
deriving DecidableEq, Repr

/-- The retry loop from the given attempt index with the given number of
iterations remaining.  Mirrors the source: each iteration invokes the
operation; a returned value is returned at once; a transient error on a
non-final iteration falls through to the next attempt (after the sleep,
which has no observable effect here); a transient error on the final
iteration is re-raised; a non-transient error is not caught.  The second
component counts how many times the operation was invoked. -/
def retryFrom (op : Nat → Except PyErr α) (attempt : Nat) :
    Nat → RetryResult α × Nat
  | 0 => (.noneReturn, 0)
  | remaining + 1 =>
    match op attempt with
    | .ok v => (.value v, 1)
    | .error e =>
      if isTransient e then
        match remaining with
        | 0 => (.raised e, 1)
        | r + 1 =>
          let p := retryFrom op (attempt + 1) (r + 1)
          (p.1, p.2 + 1)
      else (.raised e, 1)

/-- The retry wrapper: for attempt in range(retries), starting at
attempt 0.  A non-positive retries gives an empty range, so the loop
body never runs and the function returns None. -/
def retry_request (retries : Int) (op : Nat → Except PyErr α) :
    RetryResult α × Nat :=
  retryFrom op 0 retries.toNat

lemma retryFrom_ok (op : Nat → Except PyErr α) (v : α) :
    ∀ (j : Nat) (r attempt : Nat), j ≤ r →
      (∀ k, k < j → ∃ m, op (attempt + k) = .error (.requestException m)) →
      op (attempt + j) = .ok v →
      retryFrom op attempt (r + 1) = (.value v, j + 1) := by
  intro j
  induction j with
  | zero =>
    intro r attempt _ _ hsucc
    simp only [Nat.add_zero] at hsucc
    simp [retryFrom, hsucc]
  | succ j ih =>
    intro r attempt hjr hfail hsucc
    obtain ⟨m, hm⟩ := hfail 0 (Nat.succ_pos j)
    simp only [Nat.add_zero] at hm
    obtain ⟨r', rfl⟩ : ∃ r', r = r' + 1 :=
      ⟨r - 1, by omega⟩
    have step := ih r' (attempt + 1) (by omega)
      (fun k hk => by
        have := hfail (k + 1) (by omega)
        simpa [Nat.add_assoc, Nat.add_comm 1 k] using this)
      (by simpa [Nat.add_assoc, Nat.add_comm 1 j] using hsucc)
    simp [retryFrom, hm, isTransient, step]

lemma retryFrom_allFail (op : Nat → Except PyErr α) (m : String) :
    ∀ (r attempt : Nat),
      (∀ k, k < r → ∃ s, op (attempt + k) = .error (.requestException s)) →
      op (attempt + r) = .error (.requestException m) →
      retryFrom op attempt (r + 1) = (.raised (.requestException m), r + 1) := by
  intro r
  induction r with
  | zero =>
    intro attempt _ hlast
    simp only [Nat.add_zero] at hlast
    simp [retryFrom, hlast, isTransient]
  | succ r ih =>
    intro attempt hfail hlast
    obtain ⟨s, hs⟩ := hfail 0 (Nat.succ_pos r)
    simp only [Nat.add_zero] at hs
    have step := ih (attempt + 1)
      (fun k hk => by
        have := hfail (k + 1) (by omega)
        simpa [Nat.add_assoc, Nat.add_comm 1 k] using this)
      (by simpa [Nat.add_assoc, Nat.add_comm 1 r] using hlast)
    simp [retryFrom, hs, isTransient, step]

/-- C1: with retries = N > 0, an operation failing transiently on its
first N - 1 invocations and succeeding on the N-th makes the retry
wrapper return the success value of the N-th invocation, with the
operation invoked exactly N times. -/
theorem retry_transient_then_success {α : Type} (N : Nat) (hN : 0 < N)
    (op : Nat → Except PyErr α) (v : α)
    (hfail : ∀ k, k + 1 < N → ∃ m, op k = .error (.requestException m))
    (hsucc : op (N - 1) = .ok v) :
    retry_request (N : Int) op = (.value v, N) := by
  obtain ⟨r, rfl⟩ : ∃ r, N = r + 1 := ⟨N - 1, by omega⟩
  have htoNat : ((r + 1 : Nat) : Int).toNat = r + 1 := by
    simp
  unfold retry_request
  rw [htoNat]
  have := retryFrom_ok op v r r 0 (Nat.le_refl r)
    (fun k hk => by simpa using hfail k (by omega))
    (by simpa using hsucc)
  simpa using this

/-- C1 witness: retries = 3, an operation timing out on attempts 0 and 1
and returning 42 on attempt 2. -/
theorem retry_transient_then_success_witness :
    retry_request (3 : Int)
      (fun k => if k < 2 then .error (.requestException "timeout")
                else (.ok 42 : Except PyErr Nat)) = (.value 42, 3) :=
  retry_transient_then_success 3 (by decide)
    (fun k => if k < 2 then .error (.requestException "timeout") else .ok 42)
    42
    (fun k hk => ⟨"timeout", by
      have : k < 2 := by omega
      simp [this]⟩)
    rfl

/-- C2 (amended to positive retries): with retries = N > 0, an
operation failing transiently on every invocation makes the retry
wrapper re-raise the error of the final attempt unmodified, with the
operation invoked exactly N times. -/
theorem retry_all_transient_raises {α : Type} (N : Nat) (hN : 0 < N)
    (op : Nat → Except PyErr α) (m : String)
    (hfail : ∀ k, k < N → ∃ s, op k = .error (.requestException s))
    (hlast : op (N - 1) = .error (.requestException m)) :
    retry_request (N : Int) op = (.raised (.requestException m), N) := by
  obtain ⟨r, rfl⟩ : ∃ r, N = r + 1 := ⟨N - 1, by omega⟩
  have htoNat : ((r + 1 : Nat) : Int).toNat = r + 1 := by simp
  unfold retry_request
  rw [htoNat]
  have := retryFrom_allFail op m r 0
    (fun k hk => by simpa using hfail k (by omega))
    (by simpa using hlast)
  simpa using this

/-- An operation raising the transient network error on every
invocation, used to exercise the retry wrapper at retries = 0. -/
def alwaysFailOp : Nat → Except PyErr Nat :=
  fun _ => .error (.requestException "boom")

/-- C2 counterexample: at retries = 0 the loop body never runs, so the
wrapper raises nothing (it returns None with zero invocations), against
the claim that it raises after exactly 0 invocations. -/
theorem retry_zero_all_transient_does_not_raise :
    retry_request 0 alwaysFailOp = (.noneReturn, 0) ∧
    ∀ e, (retry_request 0 alwaysFailOp).1 ≠ .raised e := by
  refine ⟨rfl, ?_⟩
  intro e h
  simp [retry_request, retryFrom] at h

/-- C2 witness: retries = 2, an operation raising the transient error
with message boom on every attempt: the wrapper raises the final
error of the final attempt after exactly 2 invocations. -/
theorem retry_all_transient_raises_witness :
    retry_request (2 : Int) alwaysFailOp =
      (.raised (.requestException "boom"), 2) :=
  retry_all_transient_raises 2 (by decide) alwaysFailOp "boom"
    (fun k _ => ⟨"boom", rfl⟩) rfl

/-- C3 (amended to positive retries): with retries ≥ 1, an operation
raising a non-transient error on its first invocation makes the retry
wrapper raise that error at once, with the operation invoked exactly
once, whatever the retries value. -/
theorem retry_nontransient_raises_at_once {α : Type} (retries : Int)
    (h : 0 < retries) (op : Nat → Except PyErr α) (e : PyErr)
    (he : op 0 = .error e) (ht : isTransient e = false) :
    retry_request retries op = (.raised e, 1) := by
  obtain ⟨r, hr⟩ : ∃ r, retries.toNat = r + 1 :=
    ⟨retries.toNat - 1, by omega⟩
  unfold retry_request
  rw [hr]
  simp [retryFrom, he, ht]

/-- An operation raising a non-transient error on every invocation,
used to exercise the retry wrapper at retries = 0. -/
def typeErrorOp : Nat → Except PyErr Nat :=
  fun _ => .error (.other "TypeError")

/-- C3 counterexample: at retries = 0 the loop body never runs, so a
non-transient error is never raised and the operation is invoked zero
times, not once. -/
theorem retry_zero_nontransient_not_invoked :
    retry_request 0 typeErrorOp = (.noneReturn, 0) ∧
    (retry_request 0 typeErrorOp).2 ≠ 1 ∧
    ∀ e, (retry_request 0 typeErrorOp).1 ≠ .raised e := by
  refine ⟨rfl, by decide, ?_⟩
  intro e h
  simp [retry_request, retryFrom] at h

/-- C3 witness: retries = 5, an operation raising a non-transient
TypeError on its first invocation: the wrapper raises it with exactly
one invocation. -/
theorem retry_nontransient_raises_at_once_witness :
    retry_request (5 : Int) typeErrorOp = (.raised (.other "TypeError"), 1) :=
  retry_nontransient_raises_at_once 5 (by decide) typeErrorOp
    (.other "TypeError") rfl rfl

/-- C10: with retries ≤ 0 the range is empty; the loop body never runs,
no attempt is made, no error is raised, and the wrapper falls through
returning None with the operation invoked zero times. -/
theorem retry_nonpositive_returns_none {α : Type} (retries : Int)
    (h : retries ≤ 0) (op : Nat → Except PyErr α) :
    retry_request retries op = (.noneReturn, 0) := by
  have : retries.toNat = 0 := by omega
  unfold retry_request
  rw [this]
  simp [retryFrom]

/-- C10 witness: retries = -1 with an operation that would succeed at
once: the wrapper still returns None without invoking it. -/
theorem retry_nonpositive_returns_none_witness :
    retry_request (-1 : Int) (fun _ => (.ok 7 : Except PyErr Nat)) =
      (.noneReturn, 0) :=
  retry_nonpositive_returns_none (-1) (by decide) (fun _ => .ok 7)

/-- A comment handle from the external client: body text and score. -/
structure Comment where
  body : String
  score : Int
deriving DecidableEq, Repr

/-- A post handle from the external client: title and comment list. -/
structure Post where
  title : String
  comments : List Comment
deriving DecidableEq, Repr

/-- The external Reddit API on its success path: a subreddit name and a
post limit give the list of posts the external top ranking returns.
The limit only bounds what the external source fetches; the source is
free to return fewer (or other) posts, so the environment is an
arbitrary function. -/
def RedditEnv : Type := String → Int → List Post

/-- Python list slicing xs[:n]: the first n entries for n ≥ 0, and all
but the last -n entries for n < 0. -/
def pyTake (n : Int) (xs : List α) : List α :=
  if 0 ≤ n then xs.take n.toNat else xs.take (xs.length - (-n).toNat)

/-- The comment dictionary built by collect_top_posts: Comment Body and
Upvotes. -/
structure CommentRecord where
  commentBody : String
  upvotes : Int
deriving DecidableEq, Repr

/-- The post dictionary built by collect_top_posts: Post Title and the
truncated comment list. -/
structure PostRecord where
  postTitle : String
  comments : List CommentRecord
deriving DecidableEq, Repr

/-- The body-and-score projection applied to each kept comment. -/
def toCommentRecord (c : Comment) : CommentRecord :=
  { commentBody := c.body, upvotes := c.score }

/-- collect_top_posts on the success path: resolve the subreddit and
fetch the top posts through the environment, then loop over the posts,
appending one record per post holding the title and the first
comment_limit comments projected to body and upvotes.  The loop with
data.append is a left fold over the returned posts. -/
def collect_top_posts (env : RedditEnv) (subreddit_name : String)
    (post_limit comment_limit : Int) : List PostRecord :=
  (env subreddit_name post_limit).foldl
    (fun data post =>
      data ++ [{ postTitle := post.title,
                 comments := (pyTake comment_limit post.comments).map
                   toCommentRecord }])
    []

lemma foldl_append_singleton {α β : Type} (f : α → β) :
    ∀ (xs : List α) (acc : List β),
      xs.foldl (fun data x => data ++ [f x]) acc = acc ++ xs.map f := by
  intro xs
  induction xs with
  | nil => intro acc; simp
  | cons x xs ih =>
    intro acc
    simp [ih, List.append_assoc]

lemma collect_top_posts_eq_map (env : RedditEnv) (name : String)
    (post_limit comment_limit : Int) :
    collect_top_posts env name post_limit comment_limit =
      (env name post_limit).map (fun post =>
        { postTitle := post.title,
          comments := (pyTake comment_limit post.comments).map
            toCommentRecord }) := by
  unfold collect_top_posts
  rw [foldl_append_singleton]
  simp

lemma pyTake_nonneg (n : Int) (h : 0 ≤ n) (xs : List α) :
    pyTake n xs = xs.take n.toNat := by
  simp [pyTake, h]

/-- C5: on a subreddit whose top ranking returns a list of posts,
collect_top_posts returns one record per returned post, in the external
ranking order, each holding the post title and the first comment_limit
comments projected to exactly the body and upvote fields; comments past
comment_limit are dropped. -/
theorem collect_top_posts_one_record_per_post (env : RedditEnv)
    (name : String) (post_limit comment_limit : Int)
    (h : 0 ≤ comment_limit) :
    collect_top_posts env name post_limit comment_limit =
      (env name post_limit).map (fun post =>
        { postTitle := post.title,
          comments := (post.comments.take comment_limit.toNat).map
            toCommentRecord }) := by
  rw [collect_top_posts_eq_map]
  simp [pyTake_nonneg _ h]

/-- A concrete environment for the worked example of the spec: subreddit
python returns posts P1 (comments C1 with score 5 and C2 with score 3)
and P2 (no comments). -/
def envEx : RedditEnv := fun name _ =>
  if name = "python" then
    [{ title := "P1", comments := [⟨"C1", 5⟩, ⟨"C2", 3⟩] },
     { title := "P2", comments := [] }]
  else []

/-- C5 witness: post_limit = 2 and comment_limit = 1 on the worked
example. -/
theorem collect_top_posts_one_record_per_post_witness :
    (0 : Int) ≤ 1 ∧
    collect_top_posts envEx "python" 2 1 =
      (envEx "python" 2).map (fun post =>
        { postTitle := post.title,
          comments := (post.comments.take (1 : Int).toNat).map
            toCommentRecord }) :=
  ⟨by decide, collect_top_posts_one_record_per_post envEx "python" 2 1
    (by decide)⟩

/-- The worked example evaluated: only the first comment of P1
is kept, with body C1 and upvotes 5. -/
lemma collect_top_posts_example :
    collect_top_posts envEx "python" 2 1 =
      [{ postTitle := "P1", comments := [{ commentBody := "C1", upvotes := 5 }] },
       { postTitle := "P2", comments := [] }] := by
  decide

/-- C9: the output of collect_top_posts has exactly one record per post
the external source returned (so no more than that), the comment list
of each record is exactly the first comment_limit entries of the
comments of its posts (all of them when fewer are available), and in particular no
record holds more than comment_limit comments. -/
theorem collect_top_posts_limits (env : RedditEnv) (name : String)
    (post_limit comment_limit : Int) (h : 0 ≤ comment_limit) :
    (collect_top_posts env name post_limit comment_limit).length =
      (env name post_limit).length ∧
    (∀ (i : Nat), ((collect_top_posts env name post_limit comment_limit)[i]?).map
        PostRecord.comments =
      ((env name post_limit)[i]?).map (fun (post : Post) =>
        (post.comments.take comment_limit.toNat).map toCommentRecord)) ∧
    ∀ r ∈ collect_top_posts env name post_limit comment_limit,
      r.comments.length ≤ comment_limit.toNat := by
  rw [collect_top_posts_eq_map]
  refine ⟨by simp, fun i => ?_, fun r hr => ?_⟩
  · rw [List.getElem?_map]
    cases henv : (env name post_limit)[i]? with
    | none => rfl
    | some post => simp [pyTake_nonneg _ h]
  · obtain ⟨post, _, rfl⟩ := List.mem_map.mp hr
    simp [pyTake_nonneg _ h]

/-- C9 witness: the worked example with comment_limit = 1: two records,
comment lists as the take of each comment list, both of length at most
one. -/
theorem collect_top_posts_limits_witness :
    (0 : Int) ≤ 1 ∧
    ((collect_top_posts envEx "python" 2 1).length =
      (envEx "python" 2).length ∧
    (∀ (i : Nat), ((collect_top_posts envEx "python" 2 1)[i]?).map
        PostRecord.comments =
      ((envEx "python" 2)[i]?).map (fun (post : Post) =>
        (post.comments.take (1 : Int).toNat).map toCommentRecord)) ∧
    ∀ r ∈ collect_top_posts envEx "python" 2 1,
      r.comments.length ≤ (1 : Int).toNat) :=
  ⟨by decide, collect_top_posts_limits envEx "python" 2 1 (by decide)⟩

/-- A field value in a flat result dictionary: the toolkit stores
strings (names, titles, bodies), integers (upvotes) and the opaque
result of the external sentiment function. -/
inductive Value where
  | str : String → Value
  | int : Int → Value
deriving DecidableEq, Repr

/-- A Python dictionary with string keys, as an insertion-ordered
association list without duplicate keys in what the toolkit builds. -/
def Record : Type := List (String × Value)

instance : DecidableEq Record := by
  unfold Record
  infer_instance

/-- Dictionary read item[k]: the value under the first matching key. -/
def lookupRec (r : Record) (k : String) : Option Value :=
  match r with
  | [] => none
  | (k', v') :: rest => if k' = k then some v' else lookupRec rest k

/-- Dictionary write item[k] = v: overwrite in place when the key is
present, append at the end otherwise (Python dictionaries keep
insertion order). -/
def setField (r : Record) (k : String) (v : Value) : Record :=
  match r with
  | [] => [(k, v)]
  | (k', v') :: rest =>
    if k' = k then (k, v) :: rest else (k', v') :: setField rest k v

lemma lookupRec_setField_same (r : Record) (k : String) (v : Value) :
    lookupRec (setField r k v) k = some v := by
  induction r with
  | nil => simp [setField, lookupRec]
  | cons p rest ih =>
    obtain ⟨k', v'⟩ := p
    by_cases hk : k' = k
    · simp [setField, lookupRec, hk]
    · simp [setField, lookupRec, hk, ih]

lemma lookupRec_setField_other (r : Record) (k : String) (v : Value)
    (k' : String) (h : k' ≠ k) :
    lookupRec (setField r k v) k' = lookupRec r k' := by
  have hk : k ≠ k' := Ne.symm h
  induction r with
  | nil => simp [setField, lookupRec, hk]
  | cons p rest ih =>
    obtain ⟨k0, v0⟩ := p
    by_cases h0 : k0 = k
    · subst h0
      simp [setField, lookupRec, hk]
    · simp [setField, lookupRec, h0, ih]

/-- perform_sentiment_analysis: for each item in order, read the
Comment Body field (raising KeyError when absent) and store the result
of the external sentiment function over that body under the Sentiment
Score key of the same item.  The external TextBlob polarity is the
opaque parameter. -/
def perform_sentiment_analysis (sentiment : Value → Value) :
    List Record → Except PyErr (List Record)
  | [] => .ok []
  | item :: rest =>
    match lookupRec item "Comment Body" with
    | none => .error (.keyError "Comment Body")
    | some b =>
      match perform_sentiment_analysis sentiment rest with
      | .error e => .error e
      | .ok out => .ok (setField item "Sentiment Score" (sentiment b) :: out)

/-- The successful outcome of the sentiment step: every record gains a
Sentiment Score entry computed from its Comment Body value. -/
def addScores (sentiment : Value → Value) (data : List Record) :
    List Record :=
  data.map fun r =>
    match lookupRec r "Comment Body" with
    | some b => setField r "Sentiment Score" (sentiment b)
    | none => r

lemma perform_sentiment_eq_addScores (sentiment : Value → Value) :
    ∀ data : List Record,
      (∀ r ∈ data, (lookupRec r "Comment Body").isSome) →
      perform_sentiment_analysis sentiment data =
        .ok (addScores sentiment data) := by
  intro data
  induction data with
  | nil => intro _; rfl
  | cons item rest ih =>
    intro h
    have hitem := h item (List.mem_cons_self item rest)
    obtain ⟨b, hb⟩ := Option.isSome_iff_exists.mp hitem
    have hrest := ih (fun r hr => h r (List.mem_cons_of_mem item hr))
    simp [perform_sentiment_analysis, hb, hrest, addScores]

/-- C7: when some record of the input lacks a Comment Body field (as
the nested records of collect_top_posts do), perform_sentiment_analysis
raises the missing-field KeyError, which reaches the caller directly:
the sentiment step is not behind the retry wrapper, and the KeyError is
not the transient class the wrapper catches. -/
theorem perform_sentiment_missing_field (sentiment : Value → Value)
    (data : List Record)
    (h : ∃ r ∈ data, lookupRec r "Comment Body" = none) :
    perform_sentiment_analysis sentiment data =
      .error (.keyError "Comment Body") := by
  induction data with
  | nil => simp at h
  | cons item rest ih =>
    cases hitem : lookupRec item "Comment Body" with
    | none => simp [perform_sentiment_analysis, hitem]
    | some b =>
      obtain ⟨r, hr, hnone⟩ := h
      rcases List.mem_cons.mp hr with rfl | hr
      · rw [hitem] at hnone
        exact absurd hnone (by simp)
      · have := ih ⟨r, hr, hnone⟩
        simp [perform_sentiment_analysis, hitem, this]

/-- C7 witness: a single record shaped like a nested post record, with
a Post Title field but no Comment Body field. -/
theorem perform_sentiment_missing_field_witness :
    (∃ r ∈ [[("Post Title", Value.str "P1")]],
      lookupRec r "Comment Body" = none) ∧
    perform_sentiment_analysis (fun v => v)
      [[("Post Title", Value.str "P1")]] =
      .error (.keyError "Comment Body") :=
  ⟨⟨[("Post Title", Value.str "P1")], by simp, rfl⟩,
   perform_sentiment_missing_field (fun v => v)
     [[("Post Title", Value.str "P1")]]
     ⟨[("Post Title", Value.str "P1")], by simp, rfl⟩⟩

/-- C8: on records that all carry a Comment Body field, the sentiment
step succeeds and returns a sequence of the same length in the same
order where each record is its input record with the Sentiment Score
entry set to the result of the external function over the body, every other
field reading unchanged. -/
theorem perform_sentiment_adds_score_only (sentiment : Value → Value)
    (data : List Record)
    (h : ∀ r ∈ data, (lookupRec r "Comment Body").isSome) :
    ∃ out, perform_sentiment_analysis sentiment data = .ok out ∧
      out.length = data.length ∧
      ∀ (i : Nat) (r r' : Record), data[i]? = some r → out[i]? = some r' →
        ∃ b, lookupRec r "Comment Body" = some b ∧
          r' = setField r "Sentiment Score" (sentiment b) ∧
          lookupRec r' "Sentiment Score" = some (sentiment b) ∧
          ∀ k, k ≠ "Sentiment Score" → lookupRec r' k = lookupRec r k := by
  refine ⟨addScores sentiment data,
    perform_sentiment_eq_addScores sentiment data h, by simp [addScores], ?_⟩
  intro i r r' hr hr'
  have hmem : r ∈ data := List.mem_iff_getElem?.mpr ⟨i, hr⟩
  obtain ⟨b, hb⟩ := Option.isSome_iff_exists.mp (h r hmem)
  unfold addScores at hr'
  rw [List.getElem?_map, hr] at hr'
  simp only [Option.map_some'] at hr'
  rw [hb] at hr'
  have hr'' : r' = setField r "Sentiment Score" (sentiment b) :=
    (Option.some.injEq _ _ ▸ hr').symm
  subst hr''
  exact ⟨b, hb, rfl, lookupRec_setField_same r _ _,
    fun k hk => lookupRec_setField_other r _ _ k hk⟩

/-- C8 witness: one record with a Comment Body field, an external
function returning the integer 1. -/
theorem perform_sentiment_adds_score_only_witness :
    (∀ r ∈ [[("Comment Body", Value.str "I love this")]],
      (lookupRec r "Comment Body").isSome) ∧
    ∃ out, perform_sentiment_analysis (fun _ => Value.int 1)
        [[("Comment Body", Value.str "I love this")]] = .ok out ∧
      out.length = [[("Comment Body", Value.str "I love this")]].length ∧
      ∀ (i : Nat) (r r' : Record),
        [[("Comment Body", Value.str "I love this")]][i]? = some r →
        out[i]? = some r' →
        ∃ b, lookupRec r "Comment Body" = some b ∧
          r' = setField r "Sentiment Score" ((fun _ => Value.int 1) b) ∧
          lookupRec r' "Sentiment Score" = some ((fun _ => Value.int 1) b) ∧
          ∀ k, k ≠ "Sentiment Score" → lookupRec r' k = lookupRec r k :=
  ⟨by decide, perform_sentiment_adds_score_only (fun _ => Value.int 1)
    [[("Comment Body", Value.str "I love this")]] (by decide)⟩

/-- The sentiment step evaluated on one record: the score entry is
appended after the existing fields. -/
lemma perform_sentiment_example :
    perform_sentiment_analysis (fun _ => Value.int 1)
      [[("Comment Body", Value.str "I love this")]] =
      .ok [[("Comment Body", Value.str "I love this"),
            ("Sentiment Score", Value.int 1)]] := rfl

/-- Whether the needle occurs as a contiguous sublist of the haystack:
the Python membership test on strings, on the character lists. -/
def isSubList (needle : List Char) : List Char → Bool
  | [] => needle.isEmpty
  | c :: rest => needle.isPrefixOf (c :: rest) || isSubList needle rest

/-- Python lower casing of a text, on its character list (the ASCII
case map, the fragment of the Python case folding the examples use). -/
def pyLower (s : String) : List Char :=
  s.data.map Char.toLower

/-- Python substring membership on lower cased texts: needle.lower()
in hay.lower(). -/
def strContainsLower (hay needle : String) : Bool :=
  isSubList (pyLower needle) (pyLower hay)

/-- The match test of track_keyword_discussions: some keyword, lower
cased, occurs in the lower cased comment body. -/
def commentMatches (keywords : List String) (body : String) : Bool :=
  keywords.any fun kw => strContainsLower body kw

/-- One flat keyword-tracking row: subreddit name, post title, comment
body and upvotes, in the insertion order of the source. -/
def mkRow (subreddit_name : String) (title : String) (c : Comment) :
    Record :=
  [("Subreddit", .str subreddit_name), ("Post Title", .str title),
   ("Comment Body", .str c.body), ("Upvotes", .int c.score)]

/-- The collection loops of track_keyword_discussions: for each
subreddit, resolve it and fetch its top posts through the environment;
for each post, scan the first comment_limit comments; append one row
per comment whose body matches some keyword.  The appends are left
folds, as in the source. -/
def trackData (env : RedditEnv) (subreddits keywords : List String)
    (post_limit comment_limit : Int) : List Record :=
  subreddits.foldl (fun data name =>
    (env name post_limit).foldl (fun data post =>
      (pyTake comment_limit post.comments).foldl (fun data c =>
        if commentMatches keywords c.body then
          data ++ [mkRow name post.title c]
        else data) data) data) []

/-- track_keyword_discussions: collect the flat rows, then either pass
them through the sentiment step or return them as they are. -/
def track_keyword_discussions (env : RedditEnv)
    (subreddits keywords : List String) (post_limit comment_limit : Int)
    (sentiment_analysis : Bool) (sentiment : Value → Value) :
    Except PyErr (List Record) :=
  if sentiment_analysis then
    perform_sentiment_analysis sentiment
      (trackData env subreddits keywords post_limit comment_limit)
  else .ok (trackData env subreddits keywords post_limit comment_limit)

/-- Spec-side description of the keyword-tracking rows, following the
words of the spec: for each subreddit in order, for each returned post
in order, the scanned comments are filtered by the keyword match and
mapped to flat rows, all flattened in iteration order. -/
def trackRowsSpec (env : RedditEnv) (subreddits keywords : List String)
    (post_limit comment_limit : Int) : List Record :=
  subreddits.flatMap fun name =>
    (env name post_limit).flatMap fun post =>
      ((pyTake comment_limit post.comments).filter fun c =>
        commentMatches keywords c.body).map (mkRow name post.title)

lemma foldl_append_flatMap {α β : Type} (h : List β → α → List β)
    (g : α → List β) (hh : ∀ d x, h d x = d ++ g x) :
    ∀ (xs : List α) (acc : List β),
      xs.foldl h acc = acc ++ xs.flatMap g := by
  intro xs
  induction xs with
  | nil => intro acc; simp
  | cons x xs ih =>
    intro acc
    rw [List.foldl_cons, hh, ih, List.flatMap_cons, List.append_assoc]

lemma flatMap_ite_filter {α β : Type} (p : α → Bool) (f : α → β) :
    ∀ xs : List α,
      (xs.flatMap fun c => if p c then [f c] else []) =
        (xs.filter p).map f := by
  intro xs
  induction xs with
  | nil => rfl
  | cons c xs ih =>
    by_cases hc : p c <;>
      simp [List.flatMap_cons, List.filter_cons, hc, ih]

lemma trackData_eq_spec (env : RedditEnv) (subs kws : List String)
    (pl cl : Int) :
    trackData env subs kws pl cl = trackRowsSpec env subs kws pl cl := by
  have hcomment : ∀ (name title : String) (d : List Record)
      (cs : List Comment),
      cs.foldl (fun data c =>
        if commentMatches kws c.body then data ++ [mkRow name title c]
        else data) d =
        d ++ (cs.filter fun c => commentMatches kws c.body).map
          (mkRow name title) := by
    intro name title d cs
    rw [foldl_append_flatMap _
      (fun c => if commentMatches kws c.body then [mkRow name title c]
                else [])
      (fun d' c => by by_cases hc : commentMatches kws c.body <;> simp [hc]),
      flatMap_ite_filter]
  have hpost : ∀ (name : String) (d : List Record) (ps : List Post),
      ps.foldl (fun data post =>
        (pyTake cl post.comments).foldl (fun data c =>
          if commentMatches kws c.body then data ++ [mkRow name post.title c]
          else data) data) d =
        d ++ ps.flatMap (fun post =>
          ((pyTake cl post.comments).filter fun c =>
            commentMatches kws c.body).map (mkRow name post.title)) := by
    intro name d ps
    exact foldl_append_flatMap _ _
      (fun d' post => hcomment name post.title d' (pyTake cl post.comments))
      ps d
  unfold trackData trackRowsSpec
  rw [foldl_append_flatMap _ _ (fun d' name => hpost name d' (env name pl))]
  simp

/-- C4: with the sentiment flag off, track_keyword_discussions returns
exactly the flat rows described by the spec: one row per scanned
comment whose lower cased body has some lower cased keyword as a
substring, no row for a non-matching comment, flattened in subreddit
order, then post order, then comment order. -/
theorem track_keyword_rows (env : RedditEnv) (subs kws : List String)
    (pl cl : Int) (sentiment : Value → Value) :
    track_keyword_discussions env subs kws pl cl false sentiment =
      .ok (trackRowsSpec env subs kws pl cl) := by
  unfold track_keyword_discussions
  rw [trackData_eq_spec]
  rfl

/-- The keyword match of the spec examples: keyword great matches the
body This is GREAT news case-insensitively, and does not match the
body nothing special. -/
lemma commentMatches_example :
    commentMatches ["great"] "This is GREAT news" = true ∧
    commentMatches ["great"] "nothing special" = false := by
  constructor <;> decide

/-- A one-subreddit environment for the keyword example: a single post
with one matching and one non-matching comment. -/
def envKw : RedditEnv := fun name _ =>
  if name = "news" then
    [{ title := "T1",
       comments := [⟨"This is GREAT news", 7⟩, ⟨"nothing special", 2⟩] }]
  else []

/-- The keyword example evaluated: exactly one flat row, for the
matching comment. -/
lemma track_keyword_example :
    track_keyword_discussions envKw ["news"] ["great"] 10 10 false
      (fun v => v) =
      .ok [[("Subreddit", Value.str "news"),
            ("Post Title", Value.str "T1"),
            ("Comment Body", Value.str "This is GREAT news"),
            ("Upvotes", Value.int 7)]] := rfl

lemma mem_trackRowsSpec {env : RedditEnv} {subs kws : List String}
    {pl cl : Int} {r : Record}
    (hr : r ∈ trackRowsSpec env subs kws pl cl) :
    ∃ n t c, r = mkRow n t c := by
  unfold trackRowsSpec at hr
  obtain ⟨name, _, hr⟩ := List.mem_flatMap.mp hr
  obtain ⟨post, _, hr⟩ := List.mem_flatMap.mp hr
  obtain ⟨c, _, rfl⟩ := List.mem_map.mp hr
  exact ⟨name, post.title, c, rfl⟩

lemma lookupRec_mkRow_body (n t : String) (c : Comment) :
    lookupRec (mkRow n t c) "Comment Body" = some (.str c.body) := rfl

lemma lookupRec_mkRow_score (n t : String) (c : Comment) :
    lookupRec (mkRow n t c) "Sentiment Score" = none := rfl

/-- C6: with the sentiment flag on, track_keyword_discussions returns
rows that all carry a Sentiment Score field (the flat set is passed
through the sentiment step, which succeeds because every row has a
Comment Body field); with the flag off, the returned rows carry no
Sentiment Score field and are the unmodified flat set. -/
theorem track_sentiment_flag (env : RedditEnv) (subs kws : List String)
    (pl cl : Int) (sentiment : Value → Value) :
    (∃ out, track_keyword_discussions env subs kws pl cl true sentiment =
        .ok out ∧ ∀ r ∈ out, (lookupRec r "Sentiment Score").isSome) ∧
    (track_keyword_discussions env subs kws pl cl false sentiment =
        .ok (trackData env subs kws pl cl) ∧
      ∀ r ∈ trackData env subs kws pl cl,
        lookupRec r "Sentiment Score" = none) := by
  have hbody : ∀ r ∈ trackData env subs kws pl cl,
      (lookupRec r "Comment Body").isSome := by
    intro r hr
    rw [trackData_eq_spec] at hr
    obtain ⟨n, t, c, rfl⟩ := mem_trackRowsSpec hr
    rw [lookupRec_mkRow_body]
    rfl
  refine ⟨⟨addScores sentiment (trackData env subs kws pl cl), ?_, ?_⟩,
    rfl, ?_⟩
  · unfold track_keyword_discussions
    rw [if_pos rfl, perform_sentiment_eq_addScores _ _ hbody]
  · intro r hr
    unfold addScores at hr
    obtain ⟨r0, hr0, rfl⟩ := List.mem_map.mp hr
    obtain ⟨b, hb⟩ := Option.isSome_iff_exists.mp (hbody r0 hr0)
    rw [hb]
    rw [lookupRec_setField_same]
    rfl
  · intro r hr
    rw [trackData_eq_spec] at hr
    obtain ⟨n, t, c, rfl⟩ := mem_trackRowsSpec hr
    exact lookupRec_mkRow_score n t c
